import Mathlib

/-!
Verification of the reliability orchestration core of the push-notification
library: retry decision, retry policy calculator, circuit breaker, token
bucket rate limiter, the orchestrator send pipeline, and the retry worker.
All definitions are shallow embeddings of the TypeScript source; time is
modelled as rational milliseconds, JavaScript numbers as rationals, and
possibly-absent JavaScript values as `Option`.
-/

/-- Result from a provider send operation (`ProviderResult` in
`types/results.ts`).  `errorMsg` stands for the optional `error` object
(only its message is ever read by the core). -/
structure ProviderResult where
  success : Bool
  statusCode : Option Nat
  errorMsg : Option String
  shouldRetry : Bool
  retryAfter : Option ℚ
  deriving Repr, DecidableEq

/-- JavaScript truthiness of the optional numeric field `statusCode`
(`undefined` and `0` are falsy). -/
def statusCodeTruthy (c : Option Nat) : Bool :=
  match c with
  | none => false
  | some n => n ≠ 0

/-- Shallow embedding of `shouldRetry` from `src/retry/shouldRetry.ts`. -/
def shouldRetry (result : ProviderResult) (attempt : Nat) (maxRetries : Nat) : Bool :=
  if maxRetries ≤ attempt then
    false
  else if !result.shouldRetry then
    false
  else if statusCodeTruthy result.statusCode
      && decide (500 ≤ result.statusCode.getD 0) && decide (result.statusCode.getD 0 < 600) then
    true
  else if result.statusCode = some 429 then
    true
  else
    result.shouldRetry

/-- Retry policy configuration (`RetryPolicy` in `types/configuration.ts`);
delays are rational milliseconds. -/
structure RetryPolicy where
  maxRetries : Nat
  baseDelay : ℚ
  backoffFactor : ℚ
  maxDelay : ℚ
  jitter : Bool
  deriving Repr, DecidableEq

/-- Shallow embedding of `calculateNextRetry` from
`src/retry/calculateNextRetry.ts`.  `now` is the value of `Date.now()` and
`rand` the value of `Math.random()` (a rational in `[0,1)`); the returned
rational is the timestamp of the produced `Date`. -/
def calculateNextRetry (attempt : Nat) (policy : RetryPolicy)
    (retryAfter : Option ℚ) (now : ℚ) (rand : ℚ) : ℚ :=
  match retryAfter with
  | some ra =>
    if 0 < ra then
      now + ra * 1000
    else
      calculateBackoff attempt policy now rand
  | none => calculateBackoff attempt policy now rand
where
  /-- The body of `calculateNextRetry` past the Retry-After override. -/
  calculateBackoff (attempt : Nat) (policy : RetryPolicy) (now : ℚ) (rand : ℚ) : ℚ :=
    let delay := policy.baseDelay * policy.backoffFactor ^ attempt
    let delay := min delay policy.maxDelay
    let delay :=
      if policy.jitter then
        let jitterAmount := delay * (1 / 4)
        let jitterOffset := (rand * 2 - 1) * jitterAmount
        max 0 (delay + jitterOffset)
      else
        delay
    now + delay

/-- Circuit breaker configuration (`CircuitBreakerConfig` in
`types/configuration.ts`); `resetTimeout` is in rational milliseconds. -/
structure CircuitBreakerConfig where
  failureThreshold : Nat
  resetTimeout : ℚ
  halfOpenMaxAttempts : Nat
  deriving Repr, DecidableEq

/-- The three circuit breaker states; `opened` embeds the source's
`'open'` (a reserved word in Lean). -/
inductive CircuitBreakerState where
  | closed
  | opened
  | halfOpen
  deriving Repr, DecidableEq

/-- Mutable fields of the `CircuitBreaker` class in
`circuit-breaker/CircuitBreaker.ts`. -/
structure CircuitBreaker where
  state : CircuitBreakerState
  failureCount : Nat
  successCount : Nat
  lastFailureTime : Option ℚ
  deriving Repr, DecidableEq

/-- The freshly constructed breaker: closed with all counters cleared. -/
def CircuitBreaker.initial : CircuitBreaker :=
  ⟨CircuitBreakerState.closed, 0, 0, none⟩

/-- Embedding of `CircuitBreaker.reset`: force closed, zero all counters. -/
def CircuitBreaker.reset (_cb : CircuitBreaker) : CircuitBreaker :=
  ⟨CircuitBreakerState.closed, 0, 0, none⟩

/-- Embedding of `CircuitBreaker.shouldAttemptReset`: true when a last
failure time is recorded and at least `resetTimeout` has elapsed. -/
def shouldAttemptReset (cfg : CircuitBreakerConfig) (cb : CircuitBreaker) (now : ℚ) : Bool :=
  match cb.lastFailureTime with
  | none => false
  | some t => cfg.resetTimeout ≤ now - t

/-- Embedding of `CircuitBreaker.onSuccess`. -/
def CircuitBreaker.onSuccess (cfg : CircuitBreakerConfig) (cb : CircuitBreaker) : CircuitBreaker :=
  if cb.state = CircuitBreakerState.halfOpen then
    let successCount := cb.successCount + 1
    if cfg.halfOpenMaxAttempts ≤ successCount then
      ⟨CircuitBreakerState.closed, 0, 0, none⟩
    else
      { cb with successCount := successCount }
  else if cb.state = CircuitBreakerState.closed then
    { cb with failureCount := 0 }
  else
    cb

/-- Embedding of `CircuitBreaker.onFailure` at wall-clock time `now`. -/
def CircuitBreaker.onFailure (cfg : CircuitBreakerConfig) (cb : CircuitBreaker) (now : ℚ) : CircuitBreaker :=
  let failureCount := cb.failureCount + 1
  if cfg.failureThreshold ≤ failureCount then
    ⟨CircuitBreakerState.opened, failureCount, 0, some now⟩
  else
    { cb with failureCount := failureCount, lastFailureTime := some now }

/-- The gate at the top of `CircuitBreaker.execute`: `none` means the call
is rejected with a breaker-open error without invoking the function;
`some cb1` is the breaker state under which the function is invoked
(transitioned to half-open with the success counter reset when the open
cooldown has elapsed). -/
def executeCheck (cfg : CircuitBreakerConfig) (cb : CircuitBreaker) (now : ℚ) :
    Option CircuitBreaker :=
  if cb.state = CircuitBreakerState.opened then
    if shouldAttemptReset cfg cb now then
      some { cb with state := CircuitBreakerState.halfOpen, successCount := 0 }
    else
      none
  else
    some cb

/-- How a call through `CircuitBreaker.execute` ends: the wrapped function
resolved, the wrapped function rejected (error rethrown), or the breaker
rejected without invoking it. -/
inductive ExecOutcome where
  | ok
  | fnError
  | breakerOpen
  deriving Repr, DecidableEq

/-- Observable result of one `CircuitBreaker.execute` call: whether the
wrapped function was invoked, how the call ended, and the breaker state
afterwards. -/
structure ExecResult where
  invoked : Bool
  outcome : ExecOutcome
  breaker : CircuitBreaker
  deriving Repr, DecidableEq

/-- Embedding of `CircuitBreaker.execute` at time `now`; `fnSucceeds` is
whether the wrapped promise resolves (a resolved provider result counts as
breaker success even when `result.success` is false). -/
def CircuitBreaker.execute (cfg : CircuitBreakerConfig) (cb : CircuitBreaker)
    (now : ℚ) (fnSucceeds : Bool) : ExecResult :=
  match executeCheck cfg cb now with
  | none => ⟨false, ExecOutcome.breakerOpen, cb⟩
  | some cb1 =>
    if fnSucceeds then
      ⟨true, ExecOutcome.ok, cb1.onSuccess cfg⟩
    else
      ⟨true, ExecOutcome.fnError, cb1.onFailure cfg now⟩

/-- Fold a sequence of failing executions (at the given times) through the
breaker. -/
def applyFailures (cfg : CircuitBreakerConfig) (cb : CircuitBreaker) (ts : List ℚ) :
    CircuitBreaker :=
  ts.foldl (fun b t => (CircuitBreaker.execute cfg b t false).breaker) cb

/-- Fold a sequence of successful executions (at the given times) through
the breaker. -/
def applySuccesses (cfg : CircuitBreakerConfig) (cb : CircuitBreaker) (ts : List ℚ) :
    CircuitBreaker :=
  ts.foldl (fun b t => (CircuitBreaker.execute cfg b t true).breaker) cb

/-- The last-failure timestamp after folding the times `ts` over an
initial value `lft`. -/
def lastTime (lft : Option ℚ) (ts : List ℚ) : Option ℚ :=
  ts.foldl (fun _ t => some t) lft

/-- States the breaker object can actually be in: the constructor state,
anything produced by `execute`, the transient half-open state `execute`
installs before invoking the wrapped function, and `reset`. -/
inductive CircuitBreakerReachable (cfg : CircuitBreakerConfig) : CircuitBreaker → Prop where
  | initial : CircuitBreakerReachable cfg CircuitBreaker.initial
  | executeStep (cb : CircuitBreaker) (now : ℚ) (b : Bool) :
      CircuitBreakerReachable cfg cb →
      CircuitBreakerReachable cfg (CircuitBreaker.execute cfg cb now b).breaker
  | checkStep (cb cb' : CircuitBreaker) (now : ℚ) :
      CircuitBreakerReachable cfg cb →
      executeCheck cfg cb now = some cb' →
      CircuitBreakerReachable cfg cb'
  | resetStep (cb : CircuitBreaker) :
      CircuitBreakerReachable cfg cb →
      CircuitBreakerReachable cfg cb.reset

/-- Structural invariant of the breaker: an open or half-open breaker has
accumulated at least `failureThreshold` failures, and (whenever
`halfOpenMaxAttempts` is at least 1) a half-open breaker's success counter
is strictly below `halfOpenMaxAttempts`. -/
def CircuitBreakerInv (cfg : CircuitBreakerConfig) (cb : CircuitBreaker) : Prop :=
  (cb.state = CircuitBreakerState.opened → cfg.failureThreshold ≤ cb.failureCount)
  ∧ (cb.state = CircuitBreakerState.halfOpen →
      cfg.failureThreshold ≤ cb.failureCount
      ∧ (1 ≤ cfg.halfOpenMaxAttempts → cb.successCount < cfg.halfOpenMaxAttempts))

/-- Mutable fields and constructor parameters of the
`TokenBucketRateLimiter` class in `rate-limiter/TokenBucketRateLimiter.ts`;
token counts are rational (JavaScript numbers), `lastRefill` a rational
millisecond timestamp. -/
structure TokenBucketRateLimiter where
  capacity : ℚ
  refillRate : ℚ
  tokens : ℚ
  lastRefill : ℚ
  deriving Repr, DecidableEq

/-- The freshly constructed limiter at time `now`: the bucket starts full. -/
def TokenBucketRateLimiter.create (capacity refillRate now : ℚ) : TokenBucketRateLimiter :=
  ⟨capacity, refillRate, capacity, now⟩

/-- Embedding of the lazy `refill` method: add `elapsedSeconds * refillRate`
tokens, capped at `capacity`, and stamp the refill time. -/
def TokenBucketRateLimiter.refill (b : TokenBucketRateLimiter) (now : ℚ) :
    TokenBucketRateLimiter :=
  let elapsed := (now - b.lastRefill) / 1000
  let tokensToAdd := elapsed * b.refillRate
  { b with tokens := min b.capacity (b.tokens + tokensToAdd), lastRefill := now }

/-- Embedding of `tryAcquire` at time `now`: refill, then consume when
enough tokens are available. -/
def TokenBucketRateLimiter.tryAcquire (b : TokenBucketRateLimiter) (now : ℚ)
    (tokens : ℚ) : Bool × TokenBucketRateLimiter :=
  let b := b.refill now
  if tokens ≤ b.tokens then
    (true, { b with tokens := b.tokens - tokens })
  else
    (false, b)

/-- Embedding of `getAvailableTokens`: the refilled, floored token count. -/
def TokenBucketRateLimiter.getAvailableTokens (b : TokenBucketRateLimiter) (now : ℚ) : ℤ :=
  ⌊(b.refill now).tokens⌋

/-- JavaScript truthiness of a possibly-absent string (`undefined` and the
empty string are falsy). -/
def strTruthy (s : Option String) : Bool :=
  match s with
  | none => false
  | some str => str ≠ ""

/-- Subscription status (`SubscriptionStatus` in `types/subscription.ts`). -/
inductive SubscriptionStatus where
  | active
  | blocked
  | expired
  deriving Repr, DecidableEq

/-- Encryption keys of a subscription; fields are optional to model the
runtime-malformed objects `verifySubscription` guards against. -/
structure SubscriptionKeys where
  p256dh : Option String
  auth : Option String
  deriving Repr, DecidableEq

/-- A subscription record (`Subscription` in `types/subscription.ts`);
`endpoint` and `keys` are optional to model runtime-malformed records, and
the opaque `metadata` field is omitted (never read by the core). -/
structure Subscription where
  id : String
  endpoint : Option String
  keys : Option SubscriptionKeys
  userId : Option String
  createdAt : ℚ
  updatedAt : ℚ
  lastUsedAt : Option ℚ
  failedCount : Nat
  status : SubscriptionStatus
  expiresAt : Option ℚ
  deriving Repr, DecidableEq

/-- Notification payload; opaque to the core beyond being forwarded, so
only the required fields are modelled. -/
structure NotificationPayload where
  title : String
  body : String
  deriving Repr, DecidableEq

/-- A partial subscription update as passed to
`storageAdapter.updateSubscription` (only the fields the core ever sets). -/
structure SubscriptionUpdate where
  lastUsedAt : Option ℚ
  failedCount : Option Nat
  status : Option SubscriptionStatus
  deriving Repr, DecidableEq

/-- Semantics of a partial update: present fields overwrite, absent fields
leave the stored subscription untouched. -/
def applyUpdate (s : Subscription) (u : SubscriptionUpdate) : Subscription :=
  { s with
    lastUsedAt := match u.lastUsedAt with | some t => some t | none => s.lastUsedAt,
    failedCount := u.failedCount.getD s.failedCount,
    status := u.status.getD s.status }

/-- An entry of the retry queue (`RetryEntry` in `types/results.ts`). -/
structure RetryEntry where
  id : String
  subscriptionId : String
  payload : NotificationPayload
  attempt : Nat
  nextRetryAt : ℚ
  lastError : Option String
  createdAt : ℚ
  deriving Repr, DecidableEq

/-- Result of a single send (`SendResult` in `types/results.ts`); `error`
is the thrown/propagated error message, `enqueued` the optional flag. -/
structure SendResult where
  success : Bool
  subscriptionId : String
  error : Option String
  enqueued : Option Bool
  deriving Repr, DecidableEq

/-- The error taxonomy of `types/errors.ts`, as far as the orchestrator
pipeline distinguishes it. -/
inductive PushErr where
  | validation (field : String)
  | configuration (msg : String)
  | provider (msg : String)
  | storage (msg : String)
  | circuitBreakerOpen
  | other (msg : String)
  deriving Repr, DecidableEq

/-- The `message` carried by an embedded error (what
`error instanceof Error ? error : ...` exposes to the catch block). -/
def errMessage : PushErr → String
  | PushErr.validation field => "ValidationError: " ++ field
  | PushErr.configuration msg => "ConfigurationError: " ++ msg
  | PushErr.provider msg => msg
  | PushErr.storage msg => msg
  | PushErr.circuitBreakerOpen => "Circuit breaker is open"
  | PushErr.other msg => msg

/-- A partially specified retry policy, as it sits in the configuration
before the per-field `?? default` fallback in `sendNotification`. -/
structure RetryPolicyOpt where
  maxRetries : Option Nat
  baseDelay : Option ℚ
  backoffFactor : Option ℚ
  maxDelay : Option ℚ
  jitter : Option Bool
  deriving Repr, DecidableEq

/-- The retry policy `sendNotification` actually uses: each field falls
back to its default (`?? 8`, `?? 1000`, `?? 2`, `?? 3600000`), and jitter
is on unless explicitly `false` (`!== false`). -/
def effectiveRetryPolicy (p : Option RetryPolicyOpt) : RetryPolicy :=
  { maxRetries := (p.bind (fun q => q.maxRetries)).getD 8,
    baseDelay := (p.bind (fun q => q.baseDelay)).getD 1000,
    backoffFactor := (p.bind (fun q => q.backoffFactor)).getD 2,
    maxDelay := (p.bind (fun q => q.maxDelay)).getD 3600000,
    jitter := (p.bind (fun q => q.jitter)) ≠ some false }

/-- VAPID credentials with possibly-missing components, as
`validateConfiguration` checks them. -/
structure VapidKeys where
  publicKey : Option String
  privateKey : Option String
  deriving Repr, DecidableEq

/-- The parts of `PushConfiguration` the send pipeline consults.  Adapter
and hook fields are presence flags: the adapters' behaviour is supplied by
the environment oracle `SendEnv`. -/
structure PushConfigState where
  vapidKeys : Option VapidKeys
  hasStorageAdapter : Bool
  providerAdapter : Bool
  hasRateLimiter : Bool
  hasCircuitBreaker : Bool
  cbConfig : CircuitBreakerConfig
  retryPolicy : Option RetryPolicyOpt
  onSendHook : Bool
  onSuccessHook : Bool
  onFailureHook : Bool
  onRetryHook : Bool
  hasMetrics : Bool
  deriving Repr, DecidableEq

/-- Mutable state of the `PushCore` class relevant to one send call. -/
structure CoreState where
  config : Option PushConfigState
  isShuttingDown : Bool
  deriving Repr, DecidableEq

/-- Embedding of `PushCore.validateConfiguration`: missing configuration,
missing or incomplete VAPID keys, or a missing storage adapter is a
configuration error; otherwise the configuration is returned. -/
def validateConfiguration (st : CoreState) : Except PushErr PushConfigState :=
  match st.config with
  | none => Except.error (PushErr.configuration
      "Push notification system is not configured. Call configure() first.")
  | some cfg =>
    match cfg.vapidKeys with
    | none => Except.error (PushErr.configuration "VAPID keys are required.")
    | some vk =>
      if !strTruthy vk.publicKey || !strTruthy vk.privateKey then
        Except.error (PushErr.configuration
          "VAPID keys must include both publicKey and privateKey.")
      else if !cfg.hasStorageAdapter then
        Except.error (PushErr.configuration "Storage adapter is required.")
      else
        Except.ok cfg

/-- Embedding of `PushCore.verifySubscription`: reject with a validation
error when the endpoint, the keys object, `keys.p256dh` or `keys.auth` is
missing (in that order). -/
def verifySubscription (s : Subscription) : Except PushErr Unit :=
  if !strTruthy s.endpoint then
    Except.error (PushErr.validation "endpoint")
  else
    match s.keys with
    | none => Except.error (PushErr.validation "keys")
    | some keys =>
      if !strTruthy keys.p256dh then
        Except.error (PushErr.validation "keys.p256dh")
      else if !strTruthy keys.auth then
        Except.error (PushErr.validation "keys.auth")
      else
        Except.ok ()

/-- Observable side effects of one `sendNotification` call, in order:
lifecycle hook invocations, metric emissions, a rate-limiter acquisition,
a provider call, and storage writes. -/
inductive SendEvent where
  | hookOnSend
  | hookOnSuccess
  | hookOnFailure (msg : String)
  | hookOnRetry (attempt : Nat)
  | metric (name : String)
  | rateLimiterAcquire
  | providerSend
  | storageUpdateSubscription (subscriptionId : String) (u : SubscriptionUpdate)
  | storageEnqueueRetry (entry : RetryEntry)
  deriving Repr, DecidableEq

/-- Environment oracle for one `sendNotification` call: the wall clock,
`Math.random()`, the UUID generator, the breaker state at call time, and
the outcomes of the external collaborators (a `Except.error` models the
corresponding `await` rejecting). -/
structure SendEnv where
  now : ℚ
  rand : ℚ
  newId : String
  breaker : CircuitBreaker
  rateLimiterThrows : Option String
  providerOutcome : Except String ProviderResult
  updateResult : Except String Unit
  enqueueResult : Except String Unit
  deriving Repr

/-- The provider call of `sendNotification`, wrapped by the circuit breaker
when one is configured; yields the events of the call, the breaker state
afterwards, and the provider result or propagated error. -/
def sendProvider (cfg : PushConfigState) (env : SendEnv) :
    List SendEvent × CircuitBreaker × Except PushErr ProviderResult :=
  if cfg.hasCircuitBreaker then
    match executeCheck cfg.cbConfig env.breaker env.now with
    | none => ([], env.breaker, Except.error PushErr.circuitBreakerOpen)
    | some cb1 =>
      match env.providerOutcome with
      | Except.error m =>
        ([SendEvent.providerSend], cb1.onFailure cfg.cbConfig env.now,
          Except.error (PushErr.provider m))
      | Except.ok r => ([SendEvent.providerSend], cb1.onSuccess cfg.cbConfig, Except.ok r)
  else
    match env.providerOutcome with
    | Except.error m => ([SendEvent.providerSend], env.breaker, Except.error (PushErr.provider m))
    | Except.ok r => ([SendEvent.providerSend], env.breaker, Except.ok r)

/-- The tail of `sendNotification` once a provider result is in hand: the
success path persists `lastUsedAt` only; the failure path consults
`shouldRetry` at attempt 0 and either enqueues a retry entry or reports a
non-retriable failure. -/
def sendHandleResult (cfg : PushConfigState) (env : SendEnv) (sub : Subscription)
    (payload : NotificationPayload) (r : ProviderResult) :
    List SendEvent × Except PushErr SendResult :=
  if r.success then
    let ev := [SendEvent.storageUpdateSubscription sub.id ⟨some env.now, none, none⟩]
    match env.updateResult with
    | Except.error m => (ev, Except.error (PushErr.storage m))
    | Except.ok _ =>
      (ev ++ (if cfg.onSuccessHook then [SendEvent.hookOnSuccess] else [])
          ++ (if cfg.hasMetrics then
                [SendEvent.metric "push.send.success", SendEvent.metric "push.send.duration"]
              else []),
        Except.ok ⟨true, sub.id, none, none⟩)
  else
    let policy := effectiveRetryPolicy cfg.retryPolicy
    if shouldRetry r 0 policy.maxRetries then
      let nextRetryAt := calculateNextRetry 0 policy r.retryAfter env.now env.rand
      let entry : RetryEntry := ⟨env.newId, sub.id, payload, 0, nextRetryAt, r.errorMsg, env.now⟩
      let ev := [SendEvent.storageEnqueueRetry entry]
      match env.enqueueResult with
      | Except.error m => (ev, Except.error (PushErr.storage m))
      | Except.ok _ =>
        (ev ++ (if cfg.onRetryHook then [SendEvent.hookOnRetry 0] else [])
            ++ (if cfg.hasMetrics then [SendEvent.metric "push.send.retry_enqueued"] else []),
          Except.ok ⟨false, sub.id, r.errorMsg, some true⟩)
    else
      ((if cfg.onFailureHook then [SendEvent.hookOnFailure (r.errorMsg.getD "Send failed")] else [])
          ++ (if cfg.hasMetrics then [SendEvent.metric "push.send.failure"] else []),
        Except.ok ⟨false, sub.id, r.errorMsg, some false⟩)

/-- The `try` block of the async operation inside `sendNotification`: emit
the `onSend` hook and attempt metric, verify the subscription, acquire a
rate-limiter token, resolve the provider adapter, call the provider
(through the breaker), and handle the result.  The returned `Except` is
the block's outcome before the surrounding `catch`. -/
def sendTry (cfg : PushConfigState) (env : SendEnv) (sub : Subscription)
    (payload : NotificationPayload) :
    List SendEvent × CircuitBreaker × Except PushErr SendResult :=
  let ev0 := (if cfg.onSendHook then [SendEvent.hookOnSend] else [])
      ++ (if cfg.hasMetrics then [SendEvent.metric "push.send.attempt"] else [])
  match verifySubscription sub with
  | Except.error e => (ev0, env.breaker, Except.error e)
  | Except.ok _ =>
    let ev1 := ev0 ++ (if cfg.hasRateLimiter then [SendEvent.rateLimiterAcquire] else [])
    match (if cfg.hasRateLimiter then env.rateLimiterThrows else none) with
    | some m => (ev1, env.breaker, Except.error (PushErr.other m))
    | none =>
      if !cfg.providerAdapter then
        (ev1, env.breaker, Except.error (PushErr.configuration
          "Provider adapter is required. Please configure providerAdapter."))
      else
        match sendProvider cfg env with
        | (evP, cb2, Except.error e) => (ev1 ++ evP, cb2, Except.error e)
        | (evP, cb2, Except.ok r) =>
          match sendHandleResult cfg env sub payload r with
          | (evH, res) => (ev1 ++ evP ++ evH, cb2, res)

/-- The events the `catch` block of the operation emits: a best-effort
`onFailure` hook and an error metric. -/
def catchEvents (cfg : PushConfigState) (e : PushErr) : List SendEvent :=
  (if cfg.onFailureHook then [SendEvent.hookOnFailure (errMessage e)] else [])
    ++ (if cfg.hasMetrics then [SendEvent.metric "push.send.error"] else [])

/-- The whole async operation of `sendNotification`: the `try` block with
every propagated error converted by the `catch` block into a failed,
non-enqueued `SendResult`.  It always produces a plain result - the
promise it models never rejects. -/
def sendOperation (cfg : PushConfigState) (env : SendEnv) (sub : Subscription)
    (payload : NotificationPayload) : List SendEvent × SendResult × CircuitBreaker :=
  match sendTry cfg env sub payload with
  | (tr, cb, Except.ok res) => (tr, res, cb)
  | (tr, cb, Except.error e) =>
    (tr ++ catchEvents cfg e, ⟨false, sub.id, some (errMessage e), some false⟩, cb)

/-- Embedding of `PushCore.sendNotification`: the synchronous prologue
(shutting-down check, configuration validation) may throw - modelled as
`Except.error` - and otherwise the async operation runs to a result. -/
def sendNotification (st : CoreState) (env : SendEnv) (sub : Subscription)
    (payload : NotificationPayload) :
    Except PushErr (List SendEvent × SendResult × CircuitBreaker) :=
  if st.isShuttingDown then
    Except.error (PushErr.other
      "Push notification system is shutting down. No new operations allowed.")
  else
    match validateConfiguration st with
    | Except.error e => Except.error e
    | Except.ok cfg => Except.ok (sendOperation cfg env sub payload)

/-- Replay the storage writes of an event trace against a stored
subscription (matching on its id), yielding the stored record afterwards. -/
def applyEvents (s : Subscription) : List SendEvent → Subscription
  | [] => s
  | SendEvent.storageUpdateSubscription sid u :: rest =>
    applyEvents (if sid = s.id then applyUpdate s u else s) rest
  | _ :: rest => applyEvents s rest

/-- Whether an event is a subscription-storage write. -/
def SendEvent.isStorageUpdate : SendEvent → Bool
  | SendEvent.storageUpdateSubscription _ _ => true
  | _ => false

/-- A complete sample configuration: VAPID keys, storage and provider
adapters present, all hooks configured, no metrics, no rate limiter, no
circuit breaker. -/
def sampleConfig : PushConfigState :=
  ⟨some ⟨some "pub", some "priv"⟩, true, true, false, false, ⟨5, 60000, 3⟩, none,
    true, true, true, true, false⟩

/-- A configured, not-shutting-down core. -/
def sampleState : CoreState := ⟨some sampleConfig, false⟩

/-- A well-formed active subscription with three prior consecutive
failures. -/
def sampleSub : Subscription :=
  ⟨"s1", some "https://push.example/ep", some ⟨some "p", some "a"⟩, none, 0, 0, none, 3,
    SubscriptionStatus.active, none⟩

/-- A malformed subscription: the endpoint is missing. -/
def noEndpointSub : Subscription :=
  ⟨"s1", none, some ⟨some "p", some "a"⟩, none, 0, 0, none, 0,
    SubscriptionStatus.active, none⟩

/-- An environment in which the provider succeeds and storage works. -/
def successEnv : SendEnv :=
  ⟨1000, 0, "uuid-1", CircuitBreaker.initial, none,
    Except.ok ⟨true, some 201, none, false, none⟩, Except.ok (), Except.ok ()⟩

/-- An environment in which the provider call rejects outright. -/
def providerDownEnv : SendEnv :=
  ⟨1000, 0, "uuid-1", CircuitBreaker.initial, none, Except.error "network down",
    Except.ok (), Except.ok ()⟩

/-- A sample payload. -/
def samplePayload : NotificationPayload := ⟨"t", "b"⟩

/-- Observable side effects of one `RetryWorker.processRetry` call, in
order: metrics, the provider call, retry-queue operations, and
subscription-storage writes. -/
inductive WorkerEvent where
  | ackRetry (id : String)
  | enqueueRetry (entry : RetryEntry)
  | updateSubscription (subscriptionId : String) (u : SubscriptionUpdate)
  | providerSend
  | metric (name : String)
  deriving Repr, DecidableEq

/-- Environment oracle for one `processRetry` call: wall clock,
`Math.random()`, the storage lookup of the owning subscription, the
provider outcome, and whether a metrics adapter is configured. -/
structure WorkerEnv where
  now : ℚ
  rand : ℚ
  subscription : Option Subscription
  providerOutcome : Except String ProviderResult
  hasMetrics : Bool
  deriving Repr

/-- Embedding of `RetryWorker.processRetry` from `worker/RetryWorker.ts`:
look up the owning subscription (acknowledge and skip when absent), call
the provider; on success acknowledge and reset the subscription's failure
count; on failure either re-enqueue with `attempt + 1` and acknowledge, or
- when the retry decision says no - acknowledge and mark the subscription
expired with `failedCount` incremented.  A rejected provider call falls to
the catch block, which acknowledges the entry. -/
def processRetry (policy : RetryPolicy) (env : WorkerEnv) (retry : RetryEntry) :
    List WorkerEvent :=
  let evP := if env.hasMetrics then [WorkerEvent.metric "worker.retry.processing"] else []
  match env.subscription with
  | none =>
    evP ++ [WorkerEvent.ackRetry retry.id]
      ++ (if env.hasMetrics then [WorkerEvent.metric "worker.retry.subscription_not_found"]
          else [])
  | some subscription =>
    match env.providerOutcome with
    | Except.error _ =>
      evP ++ [WorkerEvent.providerSend]
        ++ (if env.hasMetrics then [WorkerEvent.metric "worker.retry.error"] else [])
        ++ [WorkerEvent.ackRetry retry.id]
    | Except.ok result =>
      if result.success then
        evP ++ [WorkerEvent.providerSend, WorkerEvent.ackRetry retry.id,
            WorkerEvent.updateSubscription subscription.id ⟨some env.now, some 0, none⟩]
          ++ (if env.hasMetrics then [WorkerEvent.metric "worker.retry.success"] else [])
      else
        if shouldRetry result retry.attempt policy.maxRetries then
          let nextRetryAt :=
            calculateNextRetry (retry.attempt + 1) policy result.retryAfter env.now env.rand
          let nextEntry :=
            { retry with
              attempt := retry.attempt + 1
              nextRetryAt := nextRetryAt
              lastError := result.errorMsg }
          evP ++ [WorkerEvent.providerSend, WorkerEvent.enqueueRetry nextEntry,
              WorkerEvent.ackRetry retry.id]
            ++ (if env.hasMetrics then [WorkerEvent.metric "worker.retry.re_enqueued"] else [])
        else
          evP ++ [WorkerEvent.providerSend, WorkerEvent.ackRetry retry.id,
              WorkerEvent.updateSubscription subscription.id
                ⟨none, some (subscription.failedCount + 1), some SubscriptionStatus.expired⟩]
            ++ (if env.hasMetrics then [WorkerEvent.metric "worker.retry.max_retries_exceeded"]
                else [])

/-- C7: the retry decision collapses to the conjunction of the attempt
bound and the provider flag: `shouldRetry result attempt maxRetries` is
`true` exactly when `attempt < maxRetries` and the provider set
`shouldRetry`; the 429/5xx status inspection never overrides either. -/
theorem shouldRetry_eq_attempt_lt_and_provider_flag
    (result : ProviderResult) (attempt maxRetries : Nat) :
    shouldRetry result attempt maxRetries
      = (decide (attempt < maxRetries) && result.shouldRetry) := by
  cases hflag : result.shouldRetry
  · simp [shouldRetry, hflag]
  · rcases Nat.lt_or_ge attempt maxRetries with h | h
    · simp [shouldRetry, hflag, Nat.not_le.mpr h, decide_eq_true h]
    · simp [shouldRetry, hflag, h, Nat.not_lt.mpr h]

/-- C5: with jitter disabled and no positive Retry-After override, the next
retry time is exactly `now + min (baseDelay * backoffFactor ^ attempt) maxDelay`. -/
theorem calculateNextRetry_no_jitter_exact
    (attempt : Nat) (policy : RetryPolicy) (retryAfter : Option ℚ) (now rand : ℚ)
    (hj : policy.jitter = false)
    (hra : ∀ ra, retryAfter = some ra → ra ≤ 0) :
    calculateNextRetry attempt policy retryAfter now rand
      = now + min (policy.baseDelay * policy.backoffFactor ^ attempt) policy.maxDelay := by
  unfold calculateNextRetry calculateNextRetry.calculateBackoff
  cases retryAfter with
  | none => simp [hj]
  | some ra =>
    have h := hra ra rfl
    simp [not_lt.mpr h, hj]

/-- C6: a provided, strictly positive Retry-After value always wins: the
result is exactly `now + retryAfter` seconds, with backoff and jitter
bypassed for every attempt and every policy. -/
theorem calculateNextRetry_retryAfter_override
    (attempt : Nat) (policy : RetryPolicy) (ra : ℚ) (now rand : ℚ)
    (hra : 0 < ra) :
    calculateNextRetry attempt policy (some ra) now rand = now + ra * 1000 := by
  unfold calculateNextRetry
  simp [hra]

/-- Witness for C5 at a concrete input: attempt 3, base delay 1000,
factor 2, cap 3600000, jitter off, Retry-After absent. -/
theorem calculateNextRetry_no_jitter_exact_witness :
    calculateNextRetry 3 ⟨8, 1000, 2, 3600000, false⟩ none 50000 (1 / 2)
      = 50000 + min (1000 * 2 ^ 3) 3600000 := by
  have h := calculateNextRetry_no_jitter_exact 3 ⟨8, 1000, 2, 3600000, false⟩ none 50000 (1 / 2)
    rfl (by intro ra hra; cases hra)
  simpa using h

/-- Witness for C6 at a concrete input: Retry-After of 30 seconds. -/
theorem calculateNextRetry_retryAfter_override_witness :
    calculateNextRetry 3 ⟨8, 1000, 2, 3600000, true⟩ (some 30) 50000 (1 / 2)
      = 50000 + 30 * 1000 := by
  exact calculateNextRetry_retryAfter_override 3 ⟨8, 1000, 2, 3600000, true⟩ 30 50000 (1 / 2)
    (by norm_num)

theorem lastTime_some_isSome (t : ℚ) (ts : List ℚ) :
    ∃ u, lastTime (some t) ts = some u := by
  induction ts generalizing t with
  | nil => exact ⟨t, rfl⟩
  | cons v rest ih => exact ih v

theorem applyFailures_closed_lt (cfg : CircuitBreakerConfig) (ts : List ℚ) :
    ∀ (fc sc : Nat) (lft : Option ℚ), fc + ts.length < cfg.failureThreshold →
      applyFailures cfg ⟨CircuitBreakerState.closed, fc, sc, lft⟩ ts
        = ⟨CircuitBreakerState.closed, fc + ts.length, sc, lastTime lft ts⟩ := by
  induction ts with
  | nil => intro fc sc lft _; simp [applyFailures, lastTime]
  | cons t rest ih =>
    intro fc sc lft h
    have hstep : (CircuitBreaker.execute cfg ⟨CircuitBreakerState.closed, fc, sc, lft⟩ t false).breaker
        = ⟨CircuitBreakerState.closed, fc + 1, sc, some t⟩ := by
      have hnot : ¬ cfg.failureThreshold ≤ fc + 1 := by
        simp only [List.length_cons] at h; omega
      simp [CircuitBreaker.execute, executeCheck, CircuitBreaker.onFailure, hnot]
    have hlen : fc + 1 + rest.length < cfg.failureThreshold := by
      simp only [List.length_cons] at h; omega
    calc applyFailures cfg ⟨CircuitBreakerState.closed, fc, sc, lft⟩ (t :: rest)
        = applyFailures cfg ⟨CircuitBreakerState.closed, fc + 1, sc, some t⟩ rest := by
          simp [applyFailures, hstep]
      _ = ⟨CircuitBreakerState.closed, fc + 1 + rest.length, sc, lastTime (some t) rest⟩ :=
          ih (fc + 1) sc (some t) hlen
      _ = ⟨CircuitBreakerState.closed, fc + (t :: rest).length, sc, lastTime lft (t :: rest)⟩ := by
          simp only [List.length_cons, lastTime, List.foldl_cons]
          congr 1
          omega

theorem applyFailures_closed_opens (cfg : CircuitBreakerConfig) (ts : List ℚ) :
    ∀ (fc sc : Nat) (lft : Option ℚ), ts ≠ [] →
      fc + ts.length = cfg.failureThreshold →
      applyFailures cfg ⟨CircuitBreakerState.closed, fc, sc, lft⟩ ts
        = ⟨CircuitBreakerState.opened, cfg.failureThreshold, 0, lastTime lft ts⟩ := by
  induction ts with
  | nil => intro _ _ _ hne _; exact absurd rfl hne
  | cons t rest ih =>
    intro fc sc lft _ h
    cases rest with
    | nil =>
      have hthr : cfg.failureThreshold ≤ fc + 1 := by
        simp only [List.length_cons, List.length_nil] at h; omega
      have hthr' : fc + 1 = cfg.failureThreshold := by
        simp only [List.length_cons, List.length_nil] at h; omega
      simp [applyFailures, CircuitBreaker.execute, executeCheck, CircuitBreaker.onFailure,
        hthr, hthr', lastTime]
    | cons u rest' =>
      have hnot : ¬ cfg.failureThreshold ≤ fc + 1 := by
        simp only [List.length_cons] at h; omega
      have hstep : (CircuitBreaker.execute cfg ⟨CircuitBreakerState.closed, fc, sc, lft⟩ t false).breaker
          = ⟨CircuitBreakerState.closed, fc + 1, sc, some t⟩ := by
        simp [CircuitBreaker.execute, executeCheck, CircuitBreaker.onFailure, hnot]
      have hlen : fc + 1 + (u :: rest').length = cfg.failureThreshold := by
        simp only [List.length_cons] at h ⊢; omega
      calc applyFailures cfg ⟨CircuitBreakerState.closed, fc, sc, lft⟩ (t :: u :: rest')
          = applyFailures cfg ⟨CircuitBreakerState.closed, fc + 1, sc, some t⟩ (u :: rest') := by
            simp [applyFailures, hstep]
        _ = ⟨CircuitBreakerState.opened, cfg.failureThreshold, 0, lastTime (some t) (u :: rest')⟩ :=
            ih (fc + 1) sc (some t) (by simp) hlen
        _ = ⟨CircuitBreakerState.opened, cfg.failureThreshold, 0, lastTime lft (t :: u :: rest')⟩ := by
            simp [lastTime]

/-- C3: from the initial closed breaker, after exactly `failureThreshold`
consecutive failed executions the breaker is open (and still closed at
every strict prefix); while open and strictly less than `resetTimeout`
past the last failure, `execute` rejects with a breaker-open outcome
without invoking the function and without changing state; once
`resetTimeout` has elapsed, the next call passes the gate into half-open
(success counter reset) and does invoke the function. -/
theorem circuitBreaker_opens_after_threshold_and_gates
    (cfg : CircuitBreakerConfig) (ts : List ℚ)
    (hthr : 1 ≤ cfg.failureThreshold)
    (hlen : ts.length = cfg.failureThreshold) :
    (∀ k, k < cfg.failureThreshold →
        (applyFailures cfg CircuitBreaker.initial (ts.take k)).state
          = CircuitBreakerState.closed)
    ∧ (applyFailures cfg CircuitBreaker.initial ts).state = CircuitBreakerState.opened
    ∧ ∃ t, (applyFailures cfg CircuitBreaker.initial ts).lastFailureTime = some t
        ∧ (∀ now b, now - t < cfg.resetTimeout →
            CircuitBreaker.execute cfg (applyFailures cfg CircuitBreaker.initial ts) now b
              = ⟨false, ExecOutcome.breakerOpen, applyFailures cfg CircuitBreaker.initial ts⟩)
        ∧ (∀ now b, cfg.resetTimeout ≤ now - t →
            executeCheck cfg (applyFailures cfg CircuitBreaker.initial ts) now
              = some { applyFailures cfg CircuitBreaker.initial ts with
                         state := CircuitBreakerState.halfOpen, successCount := 0 }
            ∧ (CircuitBreaker.execute cfg (applyFailures cfg CircuitBreaker.initial ts) now b).invoked
                = true) := by
  have hne : ts ≠ [] := by
    intro h
    rw [h] at hlen
    simp at hlen
    omega
  have hrun : applyFailures cfg CircuitBreaker.initial ts
      = ⟨CircuitBreakerState.opened, cfg.failureThreshold, 0, lastTime none ts⟩ :=
    applyFailures_closed_opens cfg ts 0 0 none hne (by omega)
  refine ⟨?_, ?_, ?_⟩
  · intro k hk
    have hkt : (ts.take k).length = k := by
      rw [List.length_take, hlen]
      omega
    have h2 := applyFailures_closed_lt cfg (ts.take k) 0 0 none (by rw [hkt]; omega)
    show (applyFailures cfg ⟨CircuitBreakerState.closed, 0, 0, none⟩ (ts.take k)).state
      = CircuitBreakerState.closed
    rw [h2]
  · rw [hrun]
  · obtain ⟨t0, rest, rfl⟩ := List.exists_cons_of_ne_nil hne
    have hsome : lastTime (none : Option ℚ) (t0 :: rest) = lastTime (some t0) rest := rfl
    obtain ⟨u, hu⟩ := lastTime_some_isSome t0 rest
    refine ⟨u, by rw [hrun, hsome]; exact hu, ?_, ?_⟩
    · intro now b hlt
      rw [hrun]
      have hgate : shouldAttemptReset cfg
          ⟨CircuitBreakerState.opened, cfg.failureThreshold, 0, lastTime none (t0 :: rest)⟩ now
            = false := by
        rw [hsome, hu]
        simp [shouldAttemptReset, not_le.mpr hlt]
      simp only [CircuitBreaker.execute, executeCheck, hrun] at *
      simp [hgate]
    · intro now b hge
      rw [hrun]
      have hgate : shouldAttemptReset cfg
          ⟨CircuitBreakerState.opened, cfg.failureThreshold, 0, lastTime none (t0 :: rest)⟩ now
            = true := by
        rw [hsome, hu]
        simp [shouldAttemptReset, hge]
      constructor
      · simp [executeCheck, hgate]
      · cases b <;> simp [CircuitBreaker.execute, executeCheck, hgate]

/-- Witness for C3: with threshold 2, two failures (at times 0 and 100)
open the breaker. -/
theorem circuitBreaker_opens_after_threshold_and_gates_witness :
    (applyFailures ⟨2, 60000, 3⟩ CircuitBreaker.initial [0, 100]).state
      = CircuitBreakerState.opened :=
  (circuitBreaker_opens_after_threshold_and_gates ⟨2, 60000, 3⟩ [0, 100]
    (by decide) (by decide)).2.1

theorem circuitBreakerInv_initial (cfg : CircuitBreakerConfig) :
    CircuitBreakerInv cfg CircuitBreaker.initial := by
  constructor <;> intro h <;> simp [CircuitBreaker.initial] at h

theorem circuitBreakerInv_check (cfg : CircuitBreakerConfig) (cb cb' : CircuitBreaker) (now : ℚ)
    (hinv : CircuitBreakerInv cfg cb) (h : executeCheck cfg cb now = some cb') :
    CircuitBreakerInv cfg cb' := by
  unfold executeCheck at h
  by_cases hs : cb.state = CircuitBreakerState.opened
  · rw [if_pos hs] at h
    by_cases hr : shouldAttemptReset cfg cb now = true
    · rw [if_pos hr] at h
      cases h
      constructor
      · intro h2
        simp at h2
      · intro _
        refine ⟨hinv.1 hs, ?_⟩
        intro hm
        show (0 : Nat) < cfg.halfOpenMaxAttempts
        omega
    · rw [if_neg hr] at h
      cases h
  · rw [if_neg hs] at h
    cases h
    exact hinv

theorem circuitBreakerInv_onSuccess (cfg : CircuitBreakerConfig) (cb : CircuitBreaker)
    (hinv : CircuitBreakerInv cfg cb) :
    CircuitBreakerInv cfg (cb.onSuccess cfg) := by
  unfold CircuitBreaker.onSuccess
  by_cases hs : cb.state = CircuitBreakerState.halfOpen
  · rw [if_pos hs]
    by_cases hm : cfg.halfOpenMaxAttempts ≤ cb.successCount + 1
    · simp only [if_pos hm]
      exact ⟨by intro h; simp at h, by intro h; simp at h⟩
    · simp only [if_neg hm]
      refine ⟨by intro h; rw [hs] at h; simp at h, ?_⟩
      intro _
      refine ⟨(hinv.2 hs).1, ?_⟩
      intro hm2
      show cb.successCount + 1 < cfg.halfOpenMaxAttempts
      omega
  · rw [if_neg hs]
    by_cases hc : cb.state = CircuitBreakerState.closed
    · rw [if_pos hc]
      refine ⟨by intro h; rw [hc] at h; simp at h, by intro h; rw [hc] at h; simp at h⟩
    · rw [if_neg hc]
      exact hinv

theorem circuitBreakerInv_onFailure (cfg : CircuitBreakerConfig) (cb : CircuitBreaker) (now : ℚ)
    (hinv : CircuitBreakerInv cfg cb) :
    CircuitBreakerInv cfg (cb.onFailure cfg now) := by
  unfold CircuitBreaker.onFailure
  by_cases ht : cfg.failureThreshold ≤ cb.failureCount + 1
  · simp only [if_pos ht]
    exact ⟨by intro _; exact ht, by intro h; simp at h⟩
  · simp only [if_neg ht]
    refine ⟨by intro h; have := hinv.1 h; omega, ?_⟩
    intro h
    have h2 := hinv.2 h
    exact ⟨by omega, h2.2⟩

theorem circuitBreakerInv_execute (cfg : CircuitBreakerConfig) (cb : CircuitBreaker)
    (now : ℚ) (b : Bool) (hinv : CircuitBreakerInv cfg cb) :
    CircuitBreakerInv cfg (CircuitBreaker.execute cfg cb now b).breaker := by
  unfold CircuitBreaker.execute
  cases hchk : executeCheck cfg cb now with
  | none => exact hinv
  | some cb1 =>
    have h1 := circuitBreakerInv_check cfg cb cb1 now hinv hchk
    cases b
    · simpa using circuitBreakerInv_onFailure cfg cb1 now h1
    · simpa using circuitBreakerInv_onSuccess cfg cb1 h1

theorem circuitBreakerReachable_inv (cfg : CircuitBreakerConfig) (cb : CircuitBreaker)
    (h : CircuitBreakerReachable cfg cb) : CircuitBreakerInv cfg cb := by
  induction h with
  | initial => exact circuitBreakerInv_initial cfg
  | executeStep cb now b _ ih => exact circuitBreakerInv_execute cfg cb now b ih
  | checkStep cb cb' now _ hchk ih => exact circuitBreakerInv_check cfg cb cb' now ih hchk
  | resetStep cb _ => exact circuitBreakerInv_initial cfg

theorem applySuccesses_closed_cleared (cfg : CircuitBreakerConfig) (ts : List ℚ) :
    applySuccesses cfg ⟨CircuitBreakerState.closed, 0, 0, none⟩ ts
      = ⟨CircuitBreakerState.closed, 0, 0, none⟩ := by
  induction ts with
  | nil => rfl
  | cons t rest ih =>
    have hstep : (CircuitBreaker.execute cfg ⟨CircuitBreakerState.closed, 0, 0, none⟩ t true).breaker
        = ⟨CircuitBreakerState.closed, 0, 0, none⟩ := by
      simp [CircuitBreaker.execute, executeCheck, CircuitBreaker.onSuccess]
    calc applySuccesses cfg ⟨CircuitBreakerState.closed, 0, 0, none⟩ (t :: rest)
        = applySuccesses cfg ⟨CircuitBreakerState.closed, 0, 0, none⟩ rest := by
          simp [applySuccesses, hstep]
      _ = ⟨CircuitBreakerState.closed, 0, 0, none⟩ := ih

theorem applySuccesses_halfOpen_closes (cfg : CircuitBreakerConfig) (ts : List ℚ) :
    ∀ (fc sc : Nat) (lft : Option ℚ),
      sc < cfg.halfOpenMaxAttempts →
      cfg.halfOpenMaxAttempts ≤ sc + ts.length →
      applySuccesses cfg ⟨CircuitBreakerState.halfOpen, fc, sc, lft⟩ ts
        = ⟨CircuitBreakerState.closed, 0, 0, none⟩ := by
  induction ts with
  | nil =>
    intro fc sc lft h1 h2
    simp only [List.length_nil] at h2
    omega
  | cons t rest ih =>
    intro fc sc lft h1 h2
    by_cases hm : cfg.halfOpenMaxAttempts ≤ sc + 1
    · have hstep : (CircuitBreaker.execute cfg ⟨CircuitBreakerState.halfOpen, fc, sc, lft⟩ t true).breaker
          = ⟨CircuitBreakerState.closed, 0, 0, none⟩ := by
        simp [CircuitBreaker.execute, executeCheck, CircuitBreaker.onSuccess, hm]
      calc applySuccesses cfg ⟨CircuitBreakerState.halfOpen, fc, sc, lft⟩ (t :: rest)
          = applySuccesses cfg ⟨CircuitBreakerState.closed, 0, 0, none⟩ rest := by
            simp [applySuccesses, hstep]
        _ = ⟨CircuitBreakerState.closed, 0, 0, none⟩ := applySuccesses_closed_cleared cfg rest
    · have hstep : (CircuitBreaker.execute cfg ⟨CircuitBreakerState.halfOpen, fc, sc, lft⟩ t true).breaker
          = ⟨CircuitBreakerState.halfOpen, fc, sc + 1, lft⟩ := by
        simp [CircuitBreaker.execute, executeCheck, CircuitBreaker.onSuccess, hm]
      have hlen : cfg.halfOpenMaxAttempts ≤ sc + 1 + rest.length := by
        simp only [List.length_cons] at h2
        omega
      calc applySuccesses cfg ⟨CircuitBreakerState.halfOpen, fc, sc, lft⟩ (t :: rest)
          = applySuccesses cfg ⟨CircuitBreakerState.halfOpen, fc, sc + 1, lft⟩ rest := by
            simp [applySuccesses, hstep]
        _ = ⟨CircuitBreakerState.closed, 0, 0, none⟩ := ih fc (sc + 1) lft (by omega) hlen

/-- C4: for every reachable half-open breaker (with at least one half-open
attempt configured), a single failed execution invokes the function and
immediately reopens the breaker, and `halfOpenMaxAttempts` consecutive
successful executions close it with the failure count, success count and
last failure time all cleared. -/
theorem circuitBreaker_halfOpen_failure_reopens_successes_close
    (cfg : CircuitBreakerConfig) (cb : CircuitBreaker)
    (hmax : 1 ≤ cfg.halfOpenMaxAttempts)
    (hreach : CircuitBreakerReachable cfg cb)
    (hs : cb.state = CircuitBreakerState.halfOpen) :
    (∀ now, (CircuitBreaker.execute cfg cb now false).invoked = true
        ∧ (CircuitBreaker.execute cfg cb now false).breaker
            = ⟨CircuitBreakerState.opened, cb.failureCount + 1, 0, some now⟩)
    ∧ (∀ ts : List ℚ, ts.length = cfg.halfOpenMaxAttempts →
        applySuccesses cfg cb ts = ⟨CircuitBreakerState.closed, 0, 0, none⟩) := by
  have hinv := circuitBreakerReachable_inv cfg cb hreach
  have hfc : cfg.failureThreshold ≤ cb.failureCount := (hinv.2 hs).1
  have hsc : cb.successCount < cfg.halfOpenMaxAttempts := (hinv.2 hs).2 hmax
  constructor
  · intro now
    have hgate : executeCheck cfg cb now = some cb := by
      simp [executeCheck, hs]
    have hopen : cfg.failureThreshold ≤ cb.failureCount + 1 := by omega
    constructor
    · simp [CircuitBreaker.execute, hgate]
    · simp [CircuitBreaker.execute, hgate, CircuitBreaker.onFailure, hopen]
  · intro ts hts
    obtain ⟨st, fc, sc, lft⟩ := cb
    simp only at hs
    subst hs
    simp only at hsc
    exact applySuccesses_halfOpen_closes cfg ts fc sc lft hsc (by rw [hts]; omega)

/-- Witness for C4 at a concrete reachable half-open breaker: threshold 1,
reset timeout 10, one half-open attempt; a failure at time 0 opens it, the
gate at time 20 moves it to half-open, and one success closes it. -/
theorem circuitBreaker_halfOpen_witness :
    applySuccesses ⟨1, 10, 1⟩ ⟨CircuitBreakerState.halfOpen, 1, 0, some 0⟩ [30]
      = ⟨CircuitBreakerState.closed, 0, 0, none⟩ := by
  have h1 : CircuitBreakerReachable ⟨1, 10, 1⟩
      (CircuitBreaker.execute ⟨1, 10, 1⟩ CircuitBreaker.initial 0 false).breaker :=
    CircuitBreakerReachable.executeStep CircuitBreaker.initial 0 false
      CircuitBreakerReachable.initial
  have hcb : (CircuitBreaker.execute ⟨1, 10, 1⟩ CircuitBreaker.initial 0 false).breaker
      = ⟨CircuitBreakerState.opened, 1, 0, some 0⟩ := by
    simp [CircuitBreaker.execute, executeCheck, CircuitBreaker.initial, CircuitBreaker.onFailure]
  have h2 : CircuitBreakerReachable ⟨1, 10, 1⟩ ⟨CircuitBreakerState.halfOpen, 1, 0, some 0⟩ :=
    CircuitBreakerReachable.checkStep _ _ 20 (hcb ▸ h1)
      (by simp [executeCheck, shouldAttemptReset]; norm_num)
  exact (circuitBreaker_halfOpen_failure_reopens_successes_close ⟨1, 10, 1⟩
    ⟨CircuitBreakerState.halfOpen, 1, 0, some 0⟩ (by decide) h2 rfl).2 [30] (by decide)

/-- C8: `tryAcquire n` succeeds exactly when the refilled token count is at
least `n`; on success exactly `n` tokens are deducted from the refilled
count, on failure the state is exactly the refilled state; the refilled
token count never exceeds `capacity` (nor does the post-acquire count),
and absent consumption the refilled count is monotone in elapsed time. -/
theorem tokenBucket_tryAcquire_spec (b : TokenBucketRateLimiter) (now n : ℚ)
    (hn : 0 ≤ n) (hrate : 0 ≤ b.refillRate) :
    ((b.tryAcquire now n).1 = true ↔ n ≤ (b.refill now).tokens)
    ∧ ((b.tryAcquire now n).1 = true →
        (b.tryAcquire now n).2.tokens = (b.refill now).tokens - n)
    ∧ ((b.tryAcquire now n).1 = false → (b.tryAcquire now n).2 = b.refill now)
    ∧ (b.refill now).tokens ≤ b.capacity
    ∧ (b.tryAcquire now n).2.tokens ≤ b.capacity
    ∧ (∀ t1 t2 : ℚ, t1 ≤ t2 → (b.refill t1).tokens ≤ (b.refill t2).tokens) := by
  have hcap : ∀ t : ℚ, (b.refill t).tokens ≤ b.capacity := by
    intro t
    simp only [TokenBucketRateLimiter.refill]
    exact min_le_left _ _
  have hmono : ∀ t1 t2 : ℚ, t1 ≤ t2 → (b.refill t1).tokens ≤ (b.refill t2).tokens := by
    intro t1 t2 h12
    simp only [TokenBucketRateLimiter.refill]
    refine min_le_min le_rfl ?_
    have h3 : (t1 - b.lastRefill) * b.refillRate ≤ (t2 - b.lastRefill) * b.refillRate :=
      mul_le_mul_of_nonneg_right (by linarith) hrate
    have h4 : (t1 - b.lastRefill) / 1000 * b.refillRate
        ≤ (t2 - b.lastRefill) / 1000 * b.refillRate := by
      rw [div_mul_eq_mul_div, div_mul_eq_mul_div]
      exact (div_le_div_iff_of_pos_right (by norm_num : (0 : ℚ) < 1000)).mpr h3
    linarith
  by_cases h : n ≤ (b.refill now).tokens
  · refine ⟨?_, ?_, ?_, hcap now, ?_, hmono⟩
    · simp [TokenBucketRateLimiter.tryAcquire, h]
    · intro _
      simp [TokenBucketRateLimiter.tryAcquire, h]
    · intro hfalse
      simp [TokenBucketRateLimiter.tryAcquire, h] at hfalse
    · have : (b.tryAcquire now n).2.tokens = (b.refill now).tokens - n := by
        simp [TokenBucketRateLimiter.tryAcquire, h]
      rw [this]
      have := hcap now
      linarith
  · refine ⟨?_, ?_, ?_, hcap now, ?_, hmono⟩
    · simp [TokenBucketRateLimiter.tryAcquire, h]
    · intro htrue
      simp [TokenBucketRateLimiter.tryAcquire, h] at htrue
    · intro _
      simp [TokenBucketRateLimiter.tryAcquire, h]
    · have : (b.tryAcquire now n).2 = b.refill now := by
        simp [TokenBucketRateLimiter.tryAcquire, h]
      rw [this]
      exact hcap now

/-- Witness for C8 at a concrete bucket: capacity 10, rate 5 tokens/s,
currently 2 tokens stamped at time 0, queried 1 second later for 3
tokens (the refill brings it to 7, so the acquire succeeds). -/
theorem tokenBucket_tryAcquire_spec_witness :
    ((TokenBucketRateLimiter.tryAcquire ⟨10, 5, 2, 0⟩ 1000 3).1 = true
      ↔ 3 ≤ (TokenBucketRateLimiter.refill ⟨10, 5, 2, 0⟩ 1000).tokens) :=
  (tokenBucket_tryAcquire_spec ⟨10, 5, 2, 0⟩ 1000 3 (by norm_num) (by norm_num)).1

theorem mem_ite_singleton {α : Type} {ev x : α} {c : Bool}
    (h : ev ∈ (if c then [x] else [])) : ev = x := by
  cases c
  · simp at h
  · simpa using h

theorem mem_ite_pair {α : Type} {ev x y : α} {c : Bool}
    (h : ev ∈ (if c then [x, y] else [])) : ev = x ∨ ev = y := by
  cases c
  · simp at h
  · simpa using h

theorem applyEvents_append (s : Subscription) (l1 l2 : List SendEvent) :
    applyEvents s (l1 ++ l2) = applyEvents (applyEvents s l1) l2 := by
  induction l1 generalizing s with
  | nil => rfl
  | cons e rest ih => cases e <;> simp [applyEvents, ih]

theorem applyEvents_no_update (s : Subscription) (l : List SendEvent)
    (h : ∀ ev ∈ l, ev.isStorageUpdate = false) :
    applyEvents s l = s := by
  induction l generalizing s with
  | nil => rfl
  | cons e rest ih =>
    have h0 := h e (List.mem_cons_self e rest)
    have hrest : ∀ ev ∈ rest, ev.isStorageUpdate = false :=
      fun ev hm => h ev (List.mem_cons_of_mem e hm)
    cases e <;> first
      | exact ih s hrest
      | simp [SendEvent.isStorageUpdate] at h0

/-- C10: once the synchronous shutting-down and configuration checks pass,
`sendNotification` never rejects: it returns the operation's plain result,
and whenever the `try` block propagates an error (malformed subscription,
provider rejection, breaker-open, storage failure, ...) that result has
`success = false`. -/
theorem sendNotification_never_rejects
    (st : CoreState) (cfg : PushConfigState) (env : SendEnv) (sub : Subscription)
    (payload : NotificationPayload)
    (h1 : st.isShuttingDown = false)
    (h2 : validateConfiguration st = Except.ok cfg) :
    sendNotification st env sub payload = Except.ok (sendOperation cfg env sub payload)
    ∧ (∀ tr cb e, sendTry cfg env sub payload = (tr, cb, Except.error e) →
        (sendOperation cfg env sub payload).2.1.success = false) := by
  constructor
  · simp [sendNotification, h1, h2]
  · intro tr cb e hst
    simp [sendOperation, hst]

/-- Witness for C10 at a concrete configured state in which the provider
rejects outright. -/
theorem sendNotification_never_rejects_witness :
    sendNotification sampleState providerDownEnv sampleSub samplePayload
      = Except.ok (sendOperation sampleConfig providerDownEnv sampleSub samplePayload) :=
  (sendNotification_never_rejects sampleState sampleConfig providerDownEnv sampleSub
    samplePayload rfl rfl).1

/-- C1 fails on the code as stated: for a subscription with a missing
endpoint, `sendNotification` does not throw the validation error to the
caller - it resolves with a failed `SendResult` - and the `onSend` hook has
already been invoked before the validation ran. -/
theorem sendNotification_validation_not_sync_counterexample :
    sendNotification sampleState successEnv noEndpointSub samplePayload
      = Except.ok ([SendEvent.hookOnSend, SendEvent.hookOnFailure "ValidationError: endpoint"],
          ⟨false, "s1", some "ValidationError: endpoint", some false⟩, CircuitBreaker.initial)
    ∧ SendEvent.hookOnSend
        ∈ [SendEvent.hookOnSend, SendEvent.hookOnFailure "ValidationError: endpoint"] := by
  constructor
  · rfl
  · simp

/-- C1 amended: when the synchronous checks pass and the subscription is
malformed, the validation error is raised inside the pipeline after the
`onSend` hook, caught, and returned as a failed non-enqueued `SendResult`;
the breaker is untouched and the only side effects are hook invocations
and metric emissions (no rate-limiter acquisition, no provider call, no
storage write). -/
theorem sendNotification_invalid_subscription_caught
    (st : CoreState) (cfg : PushConfigState) (env : SendEnv) (sub : Subscription)
    (payload : NotificationPayload) (f : String)
    (h1 : st.isShuttingDown = false)
    (h2 : validateConfiguration st = Except.ok cfg)
    (hv : verifySubscription sub = Except.error (PushErr.validation f)) :
    ∃ tr, sendNotification st env sub payload
        = Except.ok (tr,
            ⟨false, sub.id, some (errMessage (PushErr.validation f)), some false⟩,
            env.breaker)
      ∧ ∀ ev ∈ tr, ev = SendEvent.hookOnSend
          ∨ (∃ m, ev = SendEvent.metric m)
          ∨ (∃ m, ev = SendEvent.hookOnFailure m) := by
  have hop : sendTry cfg env sub payload
      = ((if cfg.onSendHook then [SendEvent.hookOnSend] else [])
          ++ (if cfg.hasMetrics then [SendEvent.metric "push.send.attempt"] else []),
        env.breaker, Except.error (PushErr.validation f)) := by
    simp [sendTry, hv]
  refine ⟨((if cfg.onSendHook then [SendEvent.hookOnSend] else [])
      ++ (if cfg.hasMetrics then [SendEvent.metric "push.send.attempt"] else []))
      ++ catchEvents cfg (PushErr.validation f), ?_, ?_⟩
  · simp [sendNotification, h1, h2, sendOperation, hop]
  · intro ev hev
    simp only [catchEvents] at hev
    rcases List.mem_append.mp hev with h | h
    · rcases List.mem_append.mp h with h' | h'
      · exact Or.inl (mem_ite_singleton h')
      · exact Or.inr (Or.inl ⟨_, mem_ite_singleton h'⟩)
    · rcases List.mem_append.mp h with h' | h'
      · exact Or.inr (Or.inr ⟨_, mem_ite_singleton h'⟩)
      · exact Or.inr (Or.inl ⟨_, mem_ite_singleton h'⟩)

/-- Witness for the amended C1 at a concrete malformed subscription
(missing endpoint). -/
theorem sendNotification_invalid_subscription_caught_witness :
    ∃ tr, sendNotification sampleState successEnv noEndpointSub samplePayload
        = Except.ok (tr,
            ⟨false, "s1", some (errMessage (PushErr.validation "endpoint")), some false⟩,
            CircuitBreaker.initial)
      ∧ ∀ ev ∈ tr, ev = SendEvent.hookOnSend
          ∨ (∃ m, ev = SendEvent.metric m)
          ∨ (∃ m, ev = SendEvent.hookOnFailure m) :=
  sendNotification_invalid_subscription_caught sampleState sampleConfig successEnv
    noEndpointSub samplePayload "endpoint" rfl rfl rfl

/-- C2 fails on the code as stated: on a successful provider send of a
valid subscription with `failedCount = 3`, the orchestrator returns
`success = true` but the stored subscription still has `failedCount = 3` -
`sendNotification` never resets the failure counter (only `lastUsedAt` is
written). -/
theorem sendNotification_success_keeps_failedCount_counterexample :
    sendNotification sampleState successEnv sampleSub samplePayload
      = Except.ok ([SendEvent.hookOnSend, SendEvent.providerSend,
            SendEvent.storageUpdateSubscription "s1" ⟨some 1000, none, none⟩,
            SendEvent.hookOnSuccess],
          ⟨true, "s1", none, none⟩, CircuitBreaker.initial)
    ∧ (applyEvents sampleSub
        [SendEvent.hookOnSend, SendEvent.providerSend,
          SendEvent.storageUpdateSubscription "s1" ⟨some 1000, none, none⟩,
          SendEvent.hookOnSuccess]).failedCount = 3
    ∧ sampleSub.failedCount = 3 := by
  refine ⟨rfl, rfl, rfl⟩

/-- C2 amended: for every valid subscription, when the provider result has
`success = true` (and the configured collaborators cooperate), the
operation returns a `SendResult` with `success = true`, enqueues no retry
entry, and the only storage effect on the subscription is setting
`lastUsedAt` to the current time - every other field, `failedCount`
included, is unchanged. -/
theorem sendNotification_success_updates_lastUsedAt_only
    (st : CoreState) (cfg : PushConfigState) (env : SendEnv) (sub : Subscription)
    (payload : NotificationPayload) (r : ProviderResult)
    (h1 : st.isShuttingDown = false)
    (h2 : validateConfiguration st = Except.ok cfg)
    (hv : verifySubscription sub = Except.ok ())
    (hrl : cfg.hasRateLimiter = true → env.rateLimiterThrows = none)
    (hpa : cfg.providerAdapter = true)
    (hcb : cfg.hasCircuitBreaker = true →
        (executeCheck cfg.cbConfig env.breaker env.now).isSome = true)
    (hpr : env.providerOutcome = Except.ok r)
    (hrs : r.success = true)
    (hup : env.updateResult = Except.ok ()) :
    ∃ tr cb, sendNotification st env sub payload
        = Except.ok (tr, ⟨true, sub.id, none, none⟩, cb)
      ∧ applyEvents sub tr = { sub with lastUsedAt := some env.now }
      ∧ ∀ entry, SendEvent.storageEnqueueRetry entry ∉ tr := by
  have hmatch : (if cfg.hasRateLimiter then env.rateLimiterThrows else none) = none := by
    cases hhrl : cfg.hasRateLimiter
    · simp
    · simp [hrl hhrl]
  have hprov : ∃ cbX, sendProvider cfg env
      = ([SendEvent.providerSend], cbX, Except.ok r) := by
    by_cases hc : cfg.hasCircuitBreaker = true
    · obtain ⟨cb1, hcb1⟩ := Option.isSome_iff_exists.mp (hcb hc)
      exact ⟨cb1.onSuccess cfg.cbConfig, by simp [sendProvider, hc, hcb1, hpr]⟩
    · have hc2 : cfg.hasCircuitBreaker = false := by simpa using hc
      exact ⟨env.breaker, by simp [sendProvider, hc2, hpr]⟩
  obtain ⟨cbX, hprovX⟩ := hprov
  have htry : sendTry cfg env sub payload
      = ((((if cfg.onSendHook then [SendEvent.hookOnSend] else [])
            ++ (if cfg.hasMetrics then [SendEvent.metric "push.send.attempt"] else []))
          ++ (if cfg.hasRateLimiter then [SendEvent.rateLimiterAcquire] else []))
          ++ ([SendEvent.providerSend]
            ++ ([SendEvent.storageUpdateSubscription sub.id ⟨some env.now, none, none⟩]
              ++ ((if cfg.onSuccessHook then [SendEvent.hookOnSuccess] else [])
                ++ (if cfg.hasMetrics then
                      [SendEvent.metric "push.send.success",
                        SendEvent.metric "push.send.duration"]
                    else [])))),
        cbX, Except.ok ⟨true, sub.id, none, none⟩) := by
    simp [sendTry, hv, hmatch, hpa, hprovX, sendHandleResult, hrs, hup]
  refine ⟨(((if cfg.onSendHook then [SendEvent.hookOnSend] else [])
        ++ (if cfg.hasMetrics then [SendEvent.metric "push.send.attempt"] else []))
      ++ (if cfg.hasRateLimiter then [SendEvent.rateLimiterAcquire] else []))
      ++ ([SendEvent.providerSend]
        ++ ([SendEvent.storageUpdateSubscription sub.id ⟨some env.now, none, none⟩]
          ++ ((if cfg.onSuccessHook then [SendEvent.hookOnSuccess] else [])
            ++ (if cfg.hasMetrics then
                  [SendEvent.metric "push.send.success",
                    SendEvent.metric "push.send.duration"]
                else [])))), cbX, ?_, ?_, ?_⟩
  · simp [sendNotification, h1, h2, sendOperation, htry]
  · cases hosend : cfg.onSendHook <;> cases hmet : cfg.hasMetrics
      <;> cases hrl2 : cfg.hasRateLimiter <;> cases hosucc : cfg.onSuccessHook
      <;> simp [applyEvents, applyUpdate, hosend, hmet, hrl2, hosucc]
  · intro entry
    cases hosend : cfg.onSendHook <;> cases hmet : cfg.hasMetrics
      <;> cases hrl2 : cfg.hasRateLimiter <;> cases hosucc : cfg.onSuccessHook
      <;> simp [hosend, hmet, hrl2, hosucc]

/-- Witness for the amended C2 at a concrete successful send against a
subscription with three prior failures. -/
theorem sendNotification_success_updates_lastUsedAt_only_witness :
    ∃ tr cb, sendNotification sampleState successEnv sampleSub samplePayload
        = Except.ok (tr, ⟨true, "s1", none, none⟩, cb)
      ∧ applyEvents sampleSub tr = { sampleSub with lastUsedAt := some 1000 }
      ∧ ∀ entry, SendEvent.storageEnqueueRetry entry ∉ tr :=
  sendNotification_success_updates_lastUsedAt_only sampleState sampleConfig successEnv
    sampleSub samplePayload ⟨true, some 201, none, false, none⟩ rfl rfl rfl
    (by intro h; simp [sampleConfig] at h) rfl
    (by intro h; simp [sampleConfig] at h) rfl rfl rfl

/-- C9: when the worker processes an entry whose `attempt` equals
`maxRetries` and the provider fails again with `shouldRetry = true`, the
entry is acknowledged, no successor entry is enqueued, and the owning
subscription is updated to `status = expired` with `failedCount`
incremented. -/
theorem worker_max_retries_expires_subscription
    (policy : RetryPolicy) (env : WorkerEnv) (retry : RetryEntry) (sub : Subscription)
    (r : ProviderResult)
    (hsub : env.subscription = some sub)
    (hpr : env.providerOutcome = Except.ok r)
    (hfail : r.success = false)
    (hatt : retry.attempt = policy.maxRetries) :
    WorkerEvent.ackRetry retry.id ∈ processRetry policy env retry
    ∧ (∀ entry, WorkerEvent.enqueueRetry entry ∉ processRetry policy env retry)
    ∧ WorkerEvent.updateSubscription sub.id
        ⟨none, some (sub.failedCount + 1), some SubscriptionStatus.expired⟩
      ∈ processRetry policy env retry := by
  have hnoretry : shouldRetry r retry.attempt policy.maxRetries = false := by
    rw [shouldRetry_eq_attempt_lt_and_provider_flag]
    simp [hatt]
  cases hm : env.hasMetrics
    <;> simp [processRetry, hsub, hpr, hfail, hnoretry, hm]

/-- Witness for C9 at a concrete exhausted retry entry (attempt 8 with
`maxRetries = 8`) whose provider returns a retriable 500. -/
theorem worker_max_retries_expires_subscription_witness :
    WorkerEvent.ackRetry "r1"
        ∈ processRetry ⟨8, 1000, 2, 3600000, false⟩
            ⟨1000, 0, some sampleSub, Except.ok ⟨false, some 500, some "boom", true, none⟩, false⟩
            ⟨"r1", "s1", samplePayload, 8, 500, none, 0⟩
    ∧ (∀ entry, WorkerEvent.enqueueRetry entry
        ∉ processRetry ⟨8, 1000, 2, 3600000, false⟩
            ⟨1000, 0, some sampleSub, Except.ok ⟨false, some 500, some "boom", true, none⟩, false⟩
            ⟨"r1", "s1", samplePayload, 8, 500, none, 0⟩)
    ∧ WorkerEvent.updateSubscription "s1" ⟨none, some 4, some SubscriptionStatus.expired⟩
        ∈ processRetry ⟨8, 1000, 2, 3600000, false⟩
            ⟨1000, 0, some sampleSub, Except.ok ⟨false, some 500, some "boom", true, none⟩, false⟩
            ⟨"r1", "s1", samplePayload, 8, 500, none, 0⟩ :=
  worker_max_retries_expires_subscription ⟨8, 1000, 2, 3600000, false⟩
    ⟨1000, 0, some sampleSub, Except.ok ⟨false, some 500, some "boom", true, none⟩, false⟩
    ⟨"r1", "s1", samplePayload, 8, 500, none, 0⟩ sampleSub
    ⟨false, some 500, some "boom", true, none⟩ rfl rfl rfl rfl
